import Mathlib

/-!
Verification of the distribution-assembly pipeline `make_distribution.py`.

The Python module is embedded shallowly:

* `sys.argv` becomes an explicit `List String` argument;
* `os.environ.get NAME` becomes an explicit `Option String` argument per
  variable consulted;
* the subprocess machinery of `run_command` is driven by a `ProcOutcome`
  oracle describing what the child process did, so that the classification
  and escalation logic of the wrapper itself is pure;
* the filesystem is a record `FS` of directory paths and file paths with
  contents, where a path is its list of components (`os.path.join` is list
  append, path rendering is `String.intercalate "/"`);
* fallible operations return `Except`.
-/

namespace MakeDistribution

/-! ### Module-level defaults (lines 13-17 of the source) -/

def DISTRIBUTION_PATH : String := "./distribution/mf6dev"

def MODFLOW6_PATH : String := "../modflow6"

def MODFLOW6_EXAMPLES_PATH : String := "../modflow6-examples"

def FORTRAN_COMPILER : String := "gfortran"

def KEEP : Bool := false

/-! ### Generic string and list helpers used by the embedding -/

/-- Boolean test that `needle` is an initial run of `hay` (on character lists). -/
def startsWithL : List Char → List Char → Bool
  | [], _ => true
  | _ :: _, [] => false
  | a :: as, b :: bs => a = b && startsWithL as bs

/-- Boolean substring test on character lists, used to embed Python's
`x in s` on strings. -/
def hasSubstrL (needle : List Char) : List Char → Bool
  | [] => startsWithL needle []
  | b :: bs => startsWithL needle (b :: bs) || hasSubstrL needle bs

/-- Python's `needle in hay` on strings. -/
def hasSubstr (needle hay : String) : Bool :=
  hasSubstrL needle.data hay.data

/-- Boolean test that path `p` is an initial segment of path `q`
(component-wise). -/
def isInit : List String → List String → Bool
  | [], _ => true
  | _ :: _, [] => false
  | a :: as, b :: bs => a = b && isInit as bs

/-- Renders a component path the way the Python code holds it as a string. -/
def joinPath (p : List String) : String := String.intercalate "/" p

/-! ### Configuration resolver (lines 42-134)

Each `get_*` function takes the caller-supplied argument, the argument
vector, and the value of the one environment variable it consults.  The
Python loop
`for idx, arg in enumerate(sys.argv): if arg == flag: x = sys.argv[idx+1]`
is embedded by `scanFlagValue` / `scanFlagOpt`; reading past the end of
`sys.argv` (flag in final position) is the `IndexError`, modelled as
`.error ()`. -/

/-- The argument-scanning loop carrying a `String` state (used by the three
path resolvers, whose variable already holds a default before the loop).
A match on the flag overwrites the state with the next token; a flag in
final position is the `IndexError` of `sys.argv[idx + 1]`. -/
def scanFlagValue (flag : String) (cur : String) : List String → Except Unit String
  | [] => .ok cur
  | [a] => if a = flag then .error () else .ok cur
  | a :: b :: rest =>
    if a = flag then scanFlagValue flag b (b :: rest)
    else scanFlagValue flag cur (b :: rest)

/-- The argument-scanning loop carrying an `Option String` state (used by
`get_compiler`, whose variable may still be `None` after the loop). -/
def scanFlagOpt (flag : String) (cur : Option String) : List String → Except Unit (Option String)
  | [] => .ok cur
  | [a] => if a = flag then .error () else .ok cur
  | a :: b :: rest =>
    if a = flag then scanFlagOpt flag (some b) (b :: rest)
    else scanFlagOpt flag cur (b :: rest)

/-- `get_distribution_path` (lines 42-57): default for a missing caller value,
then the `-dp` scan overwrites, then `MODFLOW6_DISTRIBUTION_PATH` overrides. -/
def get_distribution_path (distribution_path : Option String) (argv : List String)
    (env_dp : Option String) : Except Unit String := do
  let d ← scanFlagValue "-dp" (distribution_path.getD DISTRIBUTION_PATH) argv
  match env_dp with
  | some v => pure v
  | none => pure d

/-- `get_modflow6_path` (lines 60-75): same shape with `-mf6p` and
`MODFLOW6_PATH`. -/
def get_modflow6_path (modflow6_path : Option String) (argv : List String)
    (env_p : Option String) : Except Unit String := do
  let d ← scanFlagValue "-mf6p" (modflow6_path.getD MODFLOW6_PATH) argv
  match env_p with
  | some v => pure v
  | none => pure d

/-- `get_modflow6_examples_path` (lines 78-93): same shape with `-mf6ep` and
`MODFLOW6_EXAMPLES_PATH`. -/
def get_modflow6_examples_path (modflow6_examples_path : Option String) (argv : List String)
    (env_ep : Option String) : Except Unit String := do
  let d ← scanFlagValue "-mf6ep" (modflow6_examples_path.getD MODFLOW6_EXAMPLES_PATH) argv
  match env_ep with
  | some v => pure v
  | none => pure d

/-- `get_compiler` (lines 96-121).  Returns the resolved compiler together
with the write performed on the `FC` environment variable (`some v` means
`os.environ["FC"] = v` ran, `none` means the environment was left alone).
`set_environmental_var` starts `True`, is re-set to `True` on a `-fc` match,
and becomes `False` only when the value is taken from `FC` itself. -/
def get_compiler (fortran_compiler : Option String) (argv : List String)
    (envFC : Option String) : Except Unit (String × Option String) := do
  let cli ← scanFlagOpt "-fc" none argv
  let fc1 : Option String :=
    match cli with
    | some v => some v
    | none => fortran_compiler
  let step : Option String × Bool :=
    match fc1 with
    | some v => (some v, true)
    | none =>
      match envFC with
      | some e => (some e, false)
      | none => (none, true)
  let fc3 := step.1.getD FORTRAN_COMPILER
  pure (fc3, if step.2 then some fc3 else none)

/-- `get_keep` (lines 124-134).  The source assigns the module default to a
local `ckeep` when `keep is None` and never touches `keep` in that branch, so
the returned variable stays `None` when no `-k`/`--keep` flag occurs; the
dead assignment is kept here verbatim as `_ckeep`. -/
def get_keep (keep : Option Bool) (argv : List String) : Option Bool :=
  let _ckeep : Option Bool := if keep.isNone then some KEEP else keep
  argv.foldl (fun k arg => if arg = "-k" ∨ arg = "--keep" then some true else k) keep

/-! ### Command runner (lines 162-199)

The child process is created with `stderr=subprocess.STDOUT`, so the parent
holds no stderr pipe and every `process.communicate()` call returns
`(stdout_bytes, None)`.  Both `except` handlers therefore crash on
`unused_err.decode("utf-8")` (an `AttributeError` on `None`) before their
`ierr = 100` / `ierr = 101` assignment is ever reached, and a launch failure
(e.g. executable not found) is raised by `Popen(...)` itself, which sits
outside the `try:` block.  The embedding keeps the dead sentinel
assignments in place so this control flow is visible. -/

/-- What happened to the invocation: `Popen` itself raised (outside the
`try:`), the child completed with combined decoded output and a return
code, `communicate` raised `TimeoutExpired` (with the stdout bytes the
post-kill `communicate()` salvages), or the `try` suite raised some other
exception (bare `except:`, same salvage). -/
inductive ProcOutcome where
  | launchFailed (exc : String)
  | completed (output : String) (returncode : Int)
  | timedOut (salvagedOutput : String)
  | commFailed (salvagedOutput : String)

/-- The `(buff, ierr)` pair the function returns to the caller. -/
structure RunResult where
  buff : String
  ierr : Int
deriving DecidableEq

/-- How a `run_command` call ends: a normal return, or an exception escaping
it.  `exc` is the constructed message for the explicit
`raise Exception(...)` of lines 194-197 and the exception class name for
exceptions the runtime raises; `killed` records whether `process.kill()`
ran first. -/
inductive PyOutcome where
  | returns (r : RunResult)
  | raises (exc : String) (killed : Bool)
deriving DecidableEq

/-- `x.decode("utf-8")` applied to the second component of a
`communicate()` result.  Under `stderr=subprocess.STDOUT` that component is
always `None`, and the attribute access on `None` raises. -/
def decodeSnd : Option String → Except String String
  | some s => .ok s
  | none => .error "AttributeError"

/-- The shared body of the two `except` handlers (lines 182-184 and
186-188): re-`communicate`, build
`output.decode("utf-8") + unused_err.decode("utf-8")`, then assign the
sentinel.  `unused_err` is `None`, so the concatenation raises before the
sentinel assignment is reached — the `.ok` result type is inhabited only by
dead code. -/
def exceptHandler (salvagedOutput : String) (sentinel : Int) : Except String RunResult := do
  let e ← decodeSnd none
  pure ⟨salvagedOutput ++ e, sentinel⟩

/-- Python's `repr` of a list of strings, as interpolated by
`f"...{argv}..."` (assumes no quote characters inside the strings, true of
every call site in the module). -/
def pyListRepr (argv : List String) : String :=
  "[" ++ String.intercalate ", " (argv.map (fun s => "'" ++ s ++ "'")) ++ "]"

/-- The code after the `with` block (lines 189-199): when control reaches it
with a `(buff, ierr)` pair, a requested escalation on a non-zero status
raises `Exception` with the f-string of lines 194-197 (the captured `buff`
is only printed when verbose, not attached); otherwise the pair is
returned. -/
def escalate (argv : List String) (terminate_on_failure killed : Bool)
    (r : RunResult) : PyOutcome :=
  if terminate_on_failure = true ∧ r.ierr ≠ 0 then
    .raises ("Failed to execute system command " ++ pyListRepr argv
      ++ "\nreturn code " ++ toString r.ierr) killed
  else .returns r

/-- `run_command` (lines 162-199).  A launch failure propagates from
`Popen` before the `try:`; normal completion flows into the escalation
check; the timeout handler kills the process and then raises
`AttributeError` out of the handler (reaching the escalation check only in
its dead branch), and the bare-`except` handler raises the same way without
a kill. -/
def run_command (argv : List String) (outcome : ProcOutcome)
    (terminate_on_failure : Bool) : PyOutcome :=
  match outcome with
  | .launchFailed exc => .raises exc false
  | .completed out rc => escalate argv terminate_on_failure false ⟨out, rc⟩
  | .timedOut salvaged =>
    match exceptHandler salvaged 100 with
    | .ok r => escalate argv terminate_on_failure true r
    | .error exc => .raises exc true
  | .commFailed salvaged =>
    match exceptHandler salvaged 101 with
    | .ok r => escalate argv terminate_on_failure false r
    | .error exc => .raises exc false

/-! ### Derived characterizations used by the precedence theorems -/

/-- Spec-side resolution order for the compiler tunable: command-line flag,
then caller argument, then the `FC` environment variable, then the built-in
default. -/
def resolvedCompiler (fc cli envFC : Option String) : String :=
  ((cli.or fc).or envFC).getD FORTRAN_COMPILER

/-- The write `get_compiler` performs on `FC`: skipped exactly when the value
was sourced from `FC` itself. -/
def compilerFCWrite (fc cli envFC : Option String) : Option String :=
  if cli = none ∧ fc = none ∧ envFC.isSome then none
  else some (resolvedCompiler fc cli envFC)

/-! ### Filesystem model

A filesystem is the list of its directory paths and its regular files
(path paired with content); a path is its list of components.  The
`os`/`shutil` primitives the module calls are modelled on this record per
their documented behaviour. -/

structure FS where
  dirs : List (List String)
  files : List (List String × String)
deriving DecidableEq

/-- The paths of the regular files. -/
def FS.filePaths (fs : FS) : List (List String) := fs.files.map Prod.fst

/-- All nonempty initial segments of a path, the leaf included: the chain of
directories `os.makedirs` has to create. -/
def nonemptyInits : List String → List (List String)
  | [] => []
  | a :: rest => [a] :: (nonemptyInits rest).map (a :: ·)

/-- The filesystem after a successful `os.makedirs(p)`: the whole directory
chain of `p` is recorded. -/
def makedirsResult (fs : FS) (p : List String) : FS :=
  ⟨fs.dirs ++ nonemptyInits p, fs.files⟩

/-- `os.makedirs(p)` (no `exist_ok`): raises when `p` already exists in any
form, raises when a would-be ancestor exists as a regular file, otherwise
records the whole directory chain. -/
def makedirs (fs : FS) (p : List String) : Except String FS :=
  if p ∈ fs.dirs ∨ p ∈ fs.filePaths then .error "FileExistsError"
  else if ∃ q ∈ nonemptyInits p, q ∈ fs.filePaths then .error "NotADirectoryError"
  else .ok (makedirsResult fs p)

/-- The filesystem after a successful `shutil.copytree(src, dst)`: `dst` and
its ancestors are recorded, every directory under `src` is mirrored, and
every file under `src` is copied to the mirrored path. -/
def copytreeResult (fs : FS) (src dst : List String) : FS :=
  ⟨fs.dirs ++ nonemptyInits dst
      ++ fs.dirs.filterMap (fun q =>
           if isInit src q then some (dst ++ q.drop src.length) else none),
   fs.files ++ fs.files.filterMap (fun e =>
     if isInit src e.1 then some (dst ++ e.1.drop src.length, e.2) else none)⟩

/-- `shutil.copytree(src, dst, dirs_exist_ok=True)`: raises when `src` is not
a directory, otherwise merges the copied subtree in. -/
def copytree (fs : FS) (src dst : List String) : Except String FS :=
  if src ∈ fs.dirs then .ok (copytreeResult fs src dst)
  else .error "FileNotFoundError"

/-- The fixed subdirectory set of lines 299-308 (`src` and `srcbmi` are
commented out in the source and created by the copies instead). -/
def distributionSubdirs : List String := ["bin", "doc", "examples", "make", "msvs", "utils"]

/-- `initialize_new_distribution` (lines 273-315): guard against an existing
target directory, create the root, copy `src` and `srcbmi` from the upstream
tree, then create the fixed subdirectories. -/
def initialize_new_distribution (fs : FS) (modflow6_path distribution_path : List String) :
    Except String FS :=
  if distribution_path ∈ fs.dirs then
    .error ("Distribution path cannot already exist. Remove "
      ++ joinPath distribution_path ++ ".")
  else do
    let fs1 ← makedirs fs distribution_path
    let fs2 ← copytree fs1 (modflow6_path ++ ["src"]) (distribution_path ++ ["src"])
    let fs3 ← copytree fs2 (modflow6_path ++ ["srcbmi"]) (distribution_path ++ ["srcbmi"])
    distributionSubdirs.foldlM (fun f sd => makedirs f (distribution_path ++ [sd])) fs3

/-- `Except.isOk` spelled out for this development. -/
def exceptOk : Except String FS → Bool
  | .ok _ => true
  | .error _ => false

/-! ### Documentation-fragment completeness check (lines 470-519) -/

/-- Index of the rightmost `'.'`, accumulator style. -/
def lastDotIdxAux : List Char → Nat → Option Nat → Option Nat
  | [], _, acc => acc
  | c :: rest, i, acc => lastDotIdxAux rest (i + 1) (if c = '.' then some i else acc)

/-- Number of leading `'.'` characters. -/
def leadingDots : List Char → Nat
  | [] => 0
  | c :: rest => if c = '.' then leadingDots rest + 1 else 0

/-- `os.path.splitext` for a bare filename: split at the rightmost dot unless
every character before it is itself a dot. -/
def splitext (s : String) : String × String :=
  let cs := s.data
  match lastDotIdxAux cs 0 none with
  | some i => if leadingDots cs < i then (⟨cs.take i⟩, ⟨cs.drop i⟩) else (s, "")
  | none => (s, "")

/-- One entry of an `os.listdir` result together with its `os.path.isfile`
status. -/
structure DirEntry where
  name : String
  isRegularFile : Bool
deriving DecidableEq

/-- The names of the regular files in a directory listing. -/
def listFilesOnly (entries : List DirEntry) : List String :=
  (entries.filter (·.isRegularFile)).map (·.name)

/-- The list comprehensions of lines 493-504: stems of the regular files
whose extension contains `marker`. -/
def stemsWithExtLike (marker : String) (entries : List DirEntry) : List String :=
  ((listFilesOnly entries).filter (fun f => hasSubstr marker (splitext f).2)).map
    (fun f => (splitext f).1)

/-- Python's `"{:3d}".format n`: decimal, right-aligned to width 3. -/
def fmt3 (n : Nat) : String :=
  let s := toString n
  if s.length < 3 then ⟨List.replicate (3 - s.length) ' '⟩ ++ s else s

/-- One iteration of the `for f in dfnfiles` loop of lines 507-513 over the
state `(icnt, missing)`. -/
def missingStep (texStems : List String) (acc : Nat × String) (f : String) : Nat × String :=
  if hasSubstr "common" f then acc
  else if (f ++ "-desc") ∈ texStems then acc
  else (acc.1 + 1, acc.2 ++ "  " ++ fmt3 (acc.1 + 1) ++ " " ++ (f ++ "-desc") ++ ".tex\n")

/-- The completeness check at the end of `rebuild_tex_from_dfn`
(lines 493-517), as a function of the `dfn` and `tex` directory listings
taken after the generator ran: the `assert icnt == 0, msg`. -/
def rebuild_tex_check (dfnDir texDir : List DirEntry) : Except String Unit :=
  let dfnfiles := stemsWithExtLike "dfn" dfnDir
  let texfiles := stemsWithExtLike "tex" texDir
  let acc := dfnfiles.foldl (missingStep texfiles) (0, "")
  if acc.1 = 0 then .ok ()
  else .error ("\n" ++ toString acc.1 ++ " TeX file(s) are missing. "
    ++ "Missing files:\n" ++ acc.2)

/-- Spec-side characterization: the `-desc` fragments that are required (the
stem does not contain `common`) but absent from the `tex` stems, in `dfn`
listing order. -/
def missingList (texStems : List String) (dfnStems : List String) : List String :=
  dfnStems.filterMap (fun f =>
    if hasSubstr "common" f then none
    else if (f ++ "-desc") ∈ texStems then none
    else some (f ++ "-desc"))

/-- The missing fragments of a pair of directory listings. -/
def missingDescFragments (dfnDir texDir : List DirEntry) : List String :=
  missingList (stemsWithExtLike "tex" texDir) (stemsWithExtLike "dfn" dfnDir)

/-- Rendering of the enumeration lines, numbering from `start + 1`. -/
def renderMissing : List String → Nat → String
  | [], _ => ""
  | f :: rest, start =>
    "  " ++ fmt3 (start + 1) ++ " " ++ f ++ ".tex\n" ++ renderMissing rest (start + 1)

/-! ### Example run-script generation (lines 795-899) -/

/-- Strict descendant test on component paths. -/
def strictUnder (base q : List String) : Bool :=
  isInit base q && decide (base.length < q.length)

/-- `os.listdir` of a directory in the model: child names of its immediate
subdirectories and files. -/
def listdirFS (fs : FS) (d : List String) : List String :=
  ((fs.dirs ++ fs.filePaths).filter
      (fun q => isInit d q && decide (q.length = d.length + 1))).filterMap
    (fun q => q.getLast?)

/-- `"mfsim.nam" in os.listdir(dwpath)` (line 801). -/
def hasSimMarker (fs : FS) (d : List String) : Bool :=
  decide ("mfsim.nam" ∈ listdirFS fs d)

/-- The folders collected by the `os.walk` loop of lines 797-802: every
strict-descendant directory of `pth` whose listing contains the marker. -/
def simFoldersRaw (fs : FS) (pth : List String) : List (List String) :=
  fs.dirs.filter (fun d => strictUnder pth d && hasSimMarker fs d)

/-- The string order `sorted` uses, lifted to component paths via their
rendering. -/
def pathR (a b : List String) : Prop := joinPath a ≤ joinPath b

instance : DecidableRel pathR :=
  fun a b => inferInstanceAs (Decidable (joinPath a ≤ joinPath b))

instance : IsTotal (List String) pathR := ⟨fun a b => le_total (joinPath a) (joinPath b)⟩

instance : IsTrans (List String) pathR := ⟨fun _ _ _ h1 h2 => le_trans h1 h2⟩

/-- `get_list_simulation_folders` (lines 795-804): collect, then `sorted`. -/
def get_list_simulation_folders (fs : FS) (pth : List String) : List (List String) :=
  (simFoldersRaw fs pth).insertionSort pathR

/-- `os.path.relpath` on already-normalized component paths: drop the common
prefix, one `..` per remaining start component. -/
def relpathAux : List String → List String → List String
  | p, [] => p
  | [], _ :: s => ".." :: relpathAux [] s
  | a :: p, b :: s =>
    if a = b then relpathAux p s
    else List.replicate (s.length + 1) ".." ++ (a :: p)

/-- `os.path.relpath p start`, rendering `"."` for equal paths. -/
def relpath (p start : List String) : List String :=
  let r := relpathAux p start
  if r = [] then ["."] else r

/-- The lines written into one per-folder `run.sh` (lines 866-874). -/
def runShContent (mf6path dwpath : List String) : List String :=
  ["#!/bin/bash", joinPath (relpath mf6path dwpath), "echo ."]

/-- The lines written into `runall.sh` (lines 880-894): a shebang, then for
each simulation folder a `cd` in, the relative binary invocation, a `cd`
back, and a blank line. -/
def runallContent (mf6path ex : List String) (folders : List (List String)) : List String :=
  "#!/bin/bash" :: folders.flatMap (fun dw =>
    ["cd " ++ joinPath (relpath dw ex), joinPath (relpath mf6path dw),
     "cd " ++ joinPath (relpath ex dw), ""])

/-- `get_platform` (lines 137-146). -/
def get_platform (sys_platform : String) : String :=
  if hasSubstr "linux" sys_platform then "linux"
  else if hasSubstr "darwin" sys_platform then "macos"
  else if hasSubstr "win" sys_platform then "windows"
  else "unknown"

/-- `build_example_run_scripts_linux` (lines 851-899) as the list of file
writes `(path, lines)` it performs: a no-op on Windows, otherwise one
`run.sh` per simulation folder followed by the aggregate `runall.sh` at the
examples root (the trailing `chmod +x` calls change no file content and are
not modelled). -/
def build_example_run_scripts_linux (sys_platform : String) (fs : FS)
    (distribution_path : List String) : List (List String × List String) :=
  if get_platform sys_platform = "windows" then []
  else
    let examples_destination := distribution_path ++ ["examples"]
    let mf6path := distribution_path ++ ["bin", "mf6"]
    let folders := get_list_simulation_folders fs examples_destination
    folders.map (fun dw => (dw ++ ["run.sh"], runShContent mf6path dw))
      ++ [(examples_destination ++ ["runall.sh"],
           runallContent mf6path examples_destination folders)]

/-! ### Archiver (lines 967-978) -/

/-- The internal names `zipdir` writes into the archive: for every walked
file whose bare filename does not contain `.DS_Store`, the arcname is
`os.path.join(root, file)` — the full walked path itself. -/
def zipdir_arcnames (fs : FS) (dirname : List String) : List (List String) :=
  fs.files.filterMap (fun e =>
    if strictUnder dirname e.1 then
      if hasSubstr ".DS_Store" (e.1.getLast?.getD "") then none
      else some e.1
    else none)

/-! ### Concrete witness data -/

/-- Witness directory listings for C5: three definition files, one of them
`common`-marked, and only one generated fragment. -/
def dfnDir5 : List DirEntry :=
  [⟨"gwf-chd.dfn", true⟩, ⟨"common.dfn", true⟩, ⟨"gwf-npf.dfn", true⟩]

/-- Witness `tex` listing for C5. -/
def texDir5 : List DirEntry := [⟨"gwf-chd-desc.tex", true⟩]

/-- Witness examples tree for C6: three marker-holding folders, listed
unsorted. -/
def fs6 : FS :=
  ⟨[["dist"], ["dist", "examples"], ["dist", "examples", "ex-b"],
    ["dist", "examples", "ex-a"], ["dist", "examples", "ex-c"]],
   [(["dist", "examples", "ex-b", "mfsim.nam"], ""),
    (["dist", "examples", "ex-a", "mfsim.nam"], ""),
    (["dist", "examples", "ex-c", "mfsim.nam"], "")]⟩

/-- Witness tree for C7: one ordinary file and one `.DS_Store` under the
distribution root `dist`. -/
def fs7 : FS :=
  ⟨[["dist"]], [(["dist", "a.txt"], "x"), (["dist", ".DS_Store"], "y")]⟩

/-- Witness upstream tree for C4: an upstream root `m` with `src` and
`srcbmi` subtrees holding one file each. -/
def fs4 : FS :=
  ⟨[["m"], ["m", "src"], ["m", "srcbmi"]],
   [(["m", "src", "kernel.f90"], "K"), (["m", "srcbmi", "bmi.f90"], "B")]⟩

/-! ## Lemmas about the argument scan -/

theorem scanFlagOpt_notMem {flag : String} :
    ∀ (l : List String) (cur : Option String), flag ∉ l →
      scanFlagOpt flag cur l = .ok cur
  | [], _, _ => rfl
  | [a], cur, h => by
    have ha : ¬ a = flag := fun he => h (he ▸ List.mem_cons_self a [])
    rw [scanFlagOpt, if_neg ha]
  | a :: b :: rest, cur, h => by
    have ha : ¬ a = flag := fun he => h (he ▸ List.mem_cons_self a (b :: rest))
    have hr : flag ∉ b :: rest := fun hm => h (List.mem_cons_of_mem a hm)
    rw [scanFlagOpt, if_neg ha]
    exact scanFlagOpt_notMem (b :: rest) cur hr

theorem scanFlagOpt_last {flag v : String} :
    ∀ (xs : List String) (ys : List String) (cur : Option String),
      flag ∉ ys → v ≠ flag →
      scanFlagOpt flag cur (xs ++ flag :: v :: ys) = .ok (some v)
  | [], ys, cur, hys, hv => by
    rw [List.nil_append, scanFlagOpt, if_pos rfl]
    cases ys with
    | nil => rw [scanFlagOpt, if_neg (fun he => hv he)]
    | cons c cs =>
      rw [scanFlagOpt, if_neg (fun he => hv he)]
      exact scanFlagOpt_notMem (c :: cs) (some v) hys
  | a :: xs, ys, cur, hys, hv => by
    rw [List.cons_append]
    by_cases ha : a = flag
    · cases hxs : xs ++ flag :: v :: ys with
      | nil => exact absurd hxs (List.append_ne_nil_of_right_ne_nil xs (List.cons_ne_nil _ _))
      | cons b tl =>
        rw [scanFlagOpt, if_pos ha, ← hxs]
        exact scanFlagOpt_last xs ys (some b) hys hv
    · cases hxs : xs ++ flag :: v :: ys with
      | nil => exact absurd hxs (List.append_ne_nil_of_right_ne_nil xs (List.cons_ne_nil _ _))
      | cons b tl =>
        rw [scanFlagOpt, if_neg ha, ← hxs]
        exact scanFlagOpt_last xs ys cur hys hv

theorem scanFlag_transfer {flag : String} :
    ∀ (l : List String) (acc : Option String) (cur : String),
      scanFlagValue flag (acc.getD cur) l
        = (scanFlagOpt flag acc l).map (fun c => c.getD cur)
  | [], _, _ => rfl
  | [a], acc, cur => by
    by_cases ha : a = flag
    · rw [scanFlagValue, if_pos ha, scanFlagOpt, if_pos ha]; rfl
    · rw [scanFlagValue, if_neg ha, scanFlagOpt, if_neg ha]; rfl
  | a :: b :: rest, acc, cur => by
    by_cases ha : a = flag
    · rw [scanFlagValue, if_pos ha, scanFlagOpt, if_pos ha]
      have h := @scanFlag_transfer flag (b :: rest) (some b) cur
      simpa using h
    · rw [scanFlagValue, if_neg ha, scanFlagOpt, if_neg ha]
      exact @scanFlag_transfer flag (b :: rest) acc cur

theorem scanFlagValue_of_opt {flag cur : String} {l : List String} {cli : Option String}
    (h : scanFlagOpt flag none l = .ok cli) :
    scanFlagValue flag cur l = .ok (cli.getD cur) := by
  have := @scanFlag_transfer flag l none cur
  simpa [h] using this

/-- Common shape of the three path resolvers as a precedence chain. -/
theorem pathResolver_eq (flag D : String) (caller env : Option String)
    (argv : List String) (cli : Option String)
    (h : scanFlagOpt flag none argv = .ok cli) :
    (do
      let d ← scanFlagValue flag (caller.getD D) argv
      match env with
      | some v => pure v
      | none => pure d : Except Unit String)
      = .ok (((env.or cli).or caller).getD D) := by
  rw [scanFlagValue_of_opt h]
  cases env <;> cases cli <;> cases caller <;> rfl

theorem get_compiler_eq {fc envFC : Option String} {argv : List String} {cli : Option String}
    (h : scanFlagOpt "-fc" none argv = .ok cli) :
    get_compiler fc argv envFC
      = .ok (resolvedCompiler fc cli envFC, compilerFCWrite fc cli envFC) := by
  unfold get_compiler
  rw [h]
  cases cli <;> cases fc <;> cases envFC <;>
    simp [resolvedCompiler, compilerFCWrite, Option.or, Except.bind, Except.pure]

/-! ## Claim theorems: configuration resolver and command runner -/

/-- Claim C1, counterexample: with both the `FC` environment variable and the
`-fc` command-line flag supplying a compiler, the resolver returns the
command-line value, not the environment value. -/
theorem C1_counterexample :
    get_compiler none ["-fc", "ifort"] (some "flang") = .ok ("ifort", some "ifort")
      ∧ "ifort" ≠ "flang" := by
  constructor
  · rfl
  · decide

/-- Claim C1, amended: the three path tunables resolve with the precedence
environment over command-line flag over caller argument over built-in
default; the compiler tunable instead resolves command-line flag over caller
argument over environment over built-in default, so a `-fc` flag wins over
`FC`.  (The keep flag consults no environment variable at all.) -/
theorem C1_amended :
    (∀ (caller env : Option String) (argv : List String) (cli : Option String),
        scanFlagOpt "-dp" none argv = .ok cli →
          get_distribution_path caller argv env
            = .ok (((env.or cli).or caller).getD DISTRIBUTION_PATH))
  ∧ (∀ (caller env : Option String) (argv : List String) (cli : Option String),
        scanFlagOpt "-mf6p" none argv = .ok cli →
          get_modflow6_path caller argv env
            = .ok (((env.or cli).or caller).getD MODFLOW6_PATH))
  ∧ (∀ (caller env : Option String) (argv : List String) (cli : Option String),
        scanFlagOpt "-mf6ep" none argv = .ok cli →
          get_modflow6_examples_path caller argv env
            = .ok (((env.or cli).or caller).getD MODFLOW6_EXAMPLES_PATH))
  ∧ (∀ (caller env : Option String) (argv : List String) (cli : Option String),
        scanFlagOpt "-fc" none argv = .ok cli →
          get_compiler caller argv env
              = .ok (resolvedCompiler caller cli env, compilerFCWrite caller cli env)
            ∧ resolvedCompiler caller cli env
              = ((cli.or caller).or env).getD FORTRAN_COMPILER) := by
  refine ⟨?_, ?_, ?_, ?_⟩
  · intro caller env argv cli h
    exact pathResolver_eq "-dp" DISTRIBUTION_PATH caller env argv cli h
  · intro caller env argv cli h
    exact pathResolver_eq "-mf6p" MODFLOW6_PATH caller env argv cli h
  · intro caller env argv cli h
    exact pathResolver_eq "-mf6ep" MODFLOW6_EXAMPLES_PATH caller env argv cli h
  · intro caller env argv cli h
    exact ⟨get_compiler_eq h, rfl⟩

/-- Witness for C1_amended: conflicting values at all three layers of the
distribution path; the environment value wins. -/
theorem C1_amended_witness :
    get_distribution_path (some "caller") ["-dp", "cli"] (some "envv") = .ok "envv" := by
  have h := C1_amended.1 (some "caller") (some "envv") ["-dp", "cli"] (some "cli") rfl
  rw [h]
  rfl

/-- Claim C2, counterexample: escalation on a completed subprocess raises,
but the exception payload is built only from the command and the return
code; the captured output (`"boom"` here) does not occur in it. -/
theorem C2_counterexample :
    run_command ["mk"] (.completed "boom" 2) true
        = .raises "Failed to execute system command ['mk']\nreturn code 2" false
      ∧ hasSubstr "boom" "Failed to execute system command ['mk']\nreturn code 2"
        = false := by
  constructor
  · rfl
  · decide

/-- Claim C2, amended: for a completed subprocess with a non-zero status,
requested escalation raises with a payload naming the command and the
return code (the captured output is printed when verbose, not attached),
and without escalation the status is returned together with the captured
output.  Only completed subprocesses reach that logic: the timeout and
bare-`except` handlers raise `AttributeError` (on `unused_err.decode` of
the `None` that `communicate()` yields under `stderr=subprocess.STDOUT`)
whether or not escalation was requested. -/
theorem C2_amended :
    (∀ (argv : List String) (out : String) (rc : Int), rc ≠ 0 →
        run_command argv (.completed out rc) true
          = .raises ("Failed to execute system command " ++ pyListRepr argv
              ++ "\nreturn code " ++ toString rc) false)
  ∧ (∀ (argv : List String) (out : String) (rc : Int),
        run_command argv (.completed out rc) false = .returns ⟨out, rc⟩)
  ∧ (∀ (argv : List String) (salvaged : String) (t : Bool),
        run_command argv (.timedOut salvaged) t = .raises "AttributeError" true)
  ∧ (∀ (argv : List String) (salvaged : String) (t : Bool),
        run_command argv (.commFailed salvaged) t = .raises "AttributeError" false) := by
  refine ⟨?_, ?_, ?_, ?_⟩
  · intro argv out rc h
    show escalate argv true false ⟨out, rc⟩ = _
    rw [escalate, if_pos ⟨rfl, h⟩]
  · intro argv out rc
    show escalate argv false false ⟨out, rc⟩ = _
    rw [escalate, if_neg (by simp)]
  · intro argv salvaged t
    rfl
  · intro argv salvaged t
    rfl

/-- Witness for C2_amended at a concrete failing completion. -/
theorem C2_amended_witness :
    run_command ["x"] (.completed "o" 1) true
      = .raises "Failed to execute system command ['x']\nreturn code 1" false := by
  have h := C2_amended.1 ["x"] "o" 1 (by decide)
  rw [h]
  rfl

/-- Claim C3: the claimed sentinel classification does not happen.  At the
failing inputs, a timeout kills the process and then `run_command` raises
`AttributeError` instead of returning sentinel 100 (the handler decodes the
`None` second component of `communicate()`), a failure inside the `try`
suite raises the same way instead of returning 101, and an
executable-not-found raises from `Popen` outside the `try:` entirely; only
the normal-completion leg (real exit status) behaves as claimed. -/
theorem C3_sentinels_unreachable :
    run_command ["sleep", "10"] (.timedOut "partial out") false
        = .raises "AttributeError" true
  ∧ run_command ["mf6"] (.commFailed "partial out") false
        = .raises "AttributeError" false
  ∧ run_command ["nosuchtool"] (.launchFailed "FileNotFoundError") false
        = .raises "FileNotFoundError" false
  ∧ run_command ["mf6"] (.completed "ok output" 0) false = .returns ⟨"ok output", 0⟩ := by
  exact ⟨rfl, rfl, rfl, rfl⟩

/-- Claim C8: with neither `-k` nor `--keep` present and no caller value, the
resolver returns `None`, not the built-in default `False` — the default is
assigned to the dead local `ckeep` and never reaches the returned variable. -/
theorem C8_keep_returns_none :
    get_keep none ["make_distribution.py"] = none
      ∧ (none : Option Bool) ≠ some false := by
  constructor
  · rfl
  · decide

/-- Claim C9: `get_compiler` writes `FC := resolved value` exactly when the
resolved value was not itself sourced from the environment; when the value
was taken from `FC`, no write happens and the environment already holds the
resolved value. -/
theorem C9_fc_write :
    ∀ (fc envFC : Option String) (argv : List String) (cli : Option String),
      scanFlagOpt "-fc" none argv = .ok cli →
        get_compiler fc argv envFC
            = .ok (resolvedCompiler fc cli envFC, compilerFCWrite fc cli envFC)
          ∧ ((cli = none ∧ fc = none ∧ envFC.isSome)
                → compilerFCWrite fc cli envFC = none
                  ∧ envFC = some (resolvedCompiler fc cli envFC))
          ∧ (¬(cli = none ∧ fc = none ∧ envFC.isSome)
                → compilerFCWrite fc cli envFC
                  = some (resolvedCompiler fc cli envFC)) := by
  intro fc envFC argv cli h
  refine ⟨get_compiler_eq h, ?_, ?_⟩
  · rintro ⟨h1, h2, h3⟩
    subst h1; subst h2
    cases envFC with
    | none => simp at h3
    | some e =>
      constructor
      · simp [compilerFCWrite]
      · simp [resolvedCompiler, Option.or]
  · intro hne
    simp [compilerFCWrite, hne]

/-- Witness for C9_fc_write: value sourced from `FC`, environment untouched. -/
theorem C9_fc_write_witness :
    get_compiler none [] (some "ifort") = .ok ("ifort", none) := by
  have h := (C9_fc_write none (some "ifort") [] none rfl).1
  rw [h]
  rfl

/-- Claim C10: when a value-taking flag occurs several times, the value after
the last occurrence wins — for the three path flags (with the environment
variable unset, which would otherwise override) and for `-fc` (whose result
is also written to `FC`). -/
theorem C10_last_flag_wins :
    (∀ (v : String) (xs ys : List String) (dp : Option String),
        "-dp" ∉ ys → v ≠ "-dp" →
          get_distribution_path dp (xs ++ "-dp" :: v :: ys) none = .ok v)
  ∧ (∀ (v : String) (xs ys : List String) (p : Option String),
        "-mf6p" ∉ ys → v ≠ "-mf6p" →
          get_modflow6_path p (xs ++ "-mf6p" :: v :: ys) none = .ok v)
  ∧ (∀ (v : String) (xs ys : List String) (p : Option String),
        "-mf6ep" ∉ ys → v ≠ "-mf6ep" →
          get_modflow6_examples_path p (xs ++ "-mf6ep" :: v :: ys) none = .ok v)
  ∧ (∀ (v : String) (xs ys : List String) (fc envFC : Option String),
        "-fc" ∉ ys → v ≠ "-fc" →
          get_compiler fc (xs ++ "-fc" :: v :: ys) envFC = .ok (v, some v)) := by
  refine ⟨?_, ?_, ?_, ?_⟩
  · intro v xs ys dp hys hv
    have h := pathResolver_eq "-dp" DISTRIBUTION_PATH dp none
      (xs ++ "-dp" :: v :: ys) (some v) (scanFlagOpt_last xs ys none hys hv)
    simpa [get_distribution_path, Option.or] using h
  · intro v xs ys p hys hv
    have h := pathResolver_eq "-mf6p" MODFLOW6_PATH p none
      (xs ++ "-mf6p" :: v :: ys) (some v) (scanFlagOpt_last xs ys none hys hv)
    simpa [get_modflow6_path, Option.or] using h
  · intro v xs ys p hys hv
    have h := pathResolver_eq "-mf6ep" MODFLOW6_EXAMPLES_PATH p none
      (xs ++ "-mf6ep" :: v :: ys) (some v) (scanFlagOpt_last xs ys none hys hv)
    simpa [get_modflow6_examples_path, Option.or] using h
  · intro v xs ys fc envFC hys hv
    have h := @get_compiler_eq fc envFC _ _
      (scanFlagOpt_last xs ys none hys hv)
    simpa [resolvedCompiler, compilerFCWrite, Option.or] using h

/-- Witness for C10_last_flag_wins: two `-dp` occurrences, second wins. -/
theorem C10_last_flag_wins_witness :
    get_distribution_path none ["-dp", "first", "-dp", "second"] none = .ok "second" := by
  exact C10_last_flag_wins.1 "second" ["-dp", "first"] [] none
    (by decide) (by decide)

/-! ## Claim theorems: documentation-fragment completeness check -/

theorem missingFold_general (tex : List String) :
    ∀ (dfns : List String) (n : Nat) (s : String),
      dfns.foldl (missingStep tex) (n, s)
        = (n + (missingList tex dfns).length,
           s ++ renderMissing (missingList tex dfns) n)
  | [], n, s => by simp [missingList, renderMissing]
  | f :: rest, n, s => by
    by_cases hc : hasSubstr "common" f = true
    · rw [List.foldl_cons,
        show missingStep tex (n, s) f = (n, s) from by simp [missingStep, hc],
        show missingList tex (f :: rest) = missingList tex rest from by
          simp [missingList, hc]]
      exact missingFold_general tex rest n s
    · by_cases hm : (f ++ "-desc") ∈ tex
      · rw [List.foldl_cons,
          show missingStep tex (n, s) f = (n, s) from by simp [missingStep, hc, hm],
          show missingList tex (f :: rest) = missingList tex rest from by
            simp [missingList, hc, hm]]
        exact missingFold_general tex rest n s
      · rw [List.foldl_cons,
          show missingStep tex (n, s) f
              = (n + 1, s ++ "  " ++ fmt3 (n + 1) ++ " " ++ (f ++ "-desc") ++ ".tex\n")
            from by simp [missingStep, hc, hm],
          missingFold_general tex rest (n + 1)
            (s ++ "  " ++ fmt3 (n + 1) ++ " " ++ (f ++ "-desc") ++ ".tex\n"),
          show missingList tex (f :: rest) = (f ++ "-desc") :: missingList tex rest from by
            simp [missingList, hc, hm]]
        refine Prod.ext ?_ ?_
        · simp only [List.length_cons]
          omega
        · simp [renderMissing, String.append_assoc]

/-- Claim C5: the completeness check fails iff some non-`common` definition
stem lacks its generated `-desc` fragment, and on failure the message
enumerates exactly the missing fragments (numbered from 1) with their
correct count. -/
theorem C5_missing_fragments :
    ∀ (dfnDir texDir : List DirEntry),
      (rebuild_tex_check dfnDir texDir = .ok ()
        ↔ missingDescFragments dfnDir texDir = [])
    ∧ (missingDescFragments dfnDir texDir ≠ [] →
        rebuild_tex_check dfnDir texDir
          = .error ("\n" ++ toString (missingDescFragments dfnDir texDir).length
              ++ " TeX file(s) are missing. " ++ "Missing files:\n"
              ++ renderMissing (missingDescFragments dfnDir texDir) 0)) := by
  intro dfnDir texDir
  have hfold := missingFold_general (stemsWithExtLike "tex" texDir)
    (stemsWithExtLike "dfn" dfnDir) 0 ""
  constructor
  · constructor
    · intro hok
      by_contra hne
      have hlen : (missingDescFragments dfnDir texDir).length ≠ 0 :=
        fun h0 => hne (List.length_eq_zero.mp h0)
      rw [rebuild_tex_check, hfold] at hok
      simp only [missingDescFragments] at hlen
      rw [if_neg (by simpa using hlen)] at hok
      exact Except.noConfusion hok
    · intro hnil
      have hlen : (missingList (stemsWithExtLike "tex" texDir)
          (stemsWithExtLike "dfn" dfnDir)).length = 0 := by
        simpa [missingDescFragments] using congrArg List.length hnil
      rw [rebuild_tex_check, hfold, if_pos (by simpa using hlen)]
  · intro hne
    have hlen : ¬ (0 + (missingList (stemsWithExtLike "tex" texDir)
        (stemsWithExtLike "dfn" dfnDir)).length = 0) := by
      simp only [Nat.zero_add]
      intro h0
      exact hne (by simpa [missingDescFragments] using List.length_eq_zero.mp h0)
    rw [rebuild_tex_check, hfold, if_neg hlen]
    simp [missingDescFragments]

/-- Witness for C5_missing_fragments: one fragment missing, message lists it
with count 1. -/
theorem C5_missing_fragments_witness :
    rebuild_tex_check dfnDir5 texDir5
      = .error "\n1 TeX file(s) are missing. Missing files:\n    1 gwf-npf-desc.tex\n" := by
  have h := (C5_missing_fragments dfnDir5 texDir5).2 (by decide)
  rw [h]
  rfl

/-! ## Claim theorems: example run-script generation -/

theorem lastOfAppendSingleton (l : List String) (a : String) :
    (l ++ [a]).getLast? = some a := by simp

/-- Claim C6: on a non-Windows platform, run-script generation writes exactly
one `run.sh` per marker-holding folder (and each folder gets its script),
exactly one aggregate `runall.sh` at the examples root, and the aggregate
visits the folders in an order that is sorted and is a permutation of the
discovered marker-holding folders. -/
theorem C6_run_scripts :
    ∀ (sys_platform : String) (fs : FS) (dp : List String),
      get_platform sys_platform ≠ "windows" →
        ((build_example_run_scripts_linux sys_platform fs dp).filter
            (fun w => decide (w.1.getLast? = some "run.sh"))).length
          = (simFoldersRaw fs (dp ++ ["examples"])).length
      ∧ ((build_example_run_scripts_linux sys_platform fs dp).filter
            (fun w => decide (w.1 = (dp ++ ["examples"]) ++ ["runall.sh"]))).length = 1
      ∧ (∀ dw ∈ get_list_simulation_folders fs (dp ++ ["examples"]),
          (dw ++ ["run.sh"], runShContent (dp ++ ["bin", "mf6"]) dw)
            ∈ build_example_run_scripts_linux sys_platform fs dp)
      ∧ List.Sorted pathR (get_list_simulation_folders fs (dp ++ ["examples"]))
      ∧ (get_list_simulation_folders fs (dp ++ ["examples"])).Perm
          (simFoldersRaw fs (dp ++ ["examples"]))
      ∧ ((dp ++ ["examples"]) ++ ["runall.sh"],
          runallContent (dp ++ ["bin", "mf6"]) (dp ++ ["examples"])
            (get_list_simulation_folders fs (dp ++ ["examples"])))
          ∈ build_example_run_scripts_linux sys_platform fs dp := by
  intro sys_platform fs dp hp
  rw [build_example_run_scripts_linux, if_neg hp]
  refine ⟨?_, ?_, ?_, ?_, ?_, ?_⟩
  · rw [List.filter_append]
    rw [List.filter_eq_self.mpr (by
      intro w hw
      rcases List.mem_map.mp hw with ⟨dw, _, hdw⟩
      simp [← hdw, lastOfAppendSingleton])]
    rw [show List.filter (fun w => decide (w.1.getLast? = some "run.sh"))
        [((dp ++ ["examples"]) ++ ["runall.sh"],
          runallContent (dp ++ ["bin", "mf6"]) (dp ++ ["examples"])
            (get_list_simulation_folders fs (dp ++ ["examples"])))] = [] from by
      simp [lastOfAppendSingleton]]
    rw [List.append_nil, List.length_map, get_list_simulation_folders,
      List.length_insertionSort]
  · rw [List.filter_append]
    rw [show (List.filter (fun w => decide (w.1 = (dp ++ ["examples"]) ++ ["runall.sh"]))
        ((get_list_simulation_folders fs (dp ++ ["examples"])).map
          (fun dw => (dw ++ ["run.sh"], runShContent (dp ++ ["bin", "mf6"]) dw)))) = []
      from by
        rw [List.filter_eq_nil_iff]
        intro w hw
        rcases List.mem_map.mp hw with ⟨dw, _, hdw⟩
        simp only [← hdw, decide_eq_true_eq]
        intro heq
        have hlast := congrArg List.getLast? heq
        rw [lastOfAppendSingleton, lastOfAppendSingleton] at hlast
        exact absurd hlast (by decide)]
    simp
  · intro dw hdw
    exact List.mem_append_left _ (List.mem_map_of_mem _ hdw)
  · exact List.sorted_insertionSort pathR (simFoldersRaw fs (dp ++ ["examples"]))
  · exact List.perm_insertionSort pathR (simFoldersRaw fs (dp ++ ["examples"]))
  · exact List.mem_append_right _ (List.mem_singleton.mpr rfl)

/-- Witness for C6_run_scripts: three simulation folders yield three
per-folder scripts. -/
theorem C6_run_scripts_witness :
    ((build_example_run_scripts_linux "linux" fs6 ["dist"]).filter
        (fun w => decide (w.1.getLast? = some "run.sh"))).length = 3 := by
  have h := (C6_run_scripts "linux" fs6 ["dist"] (by decide)).1
  rw [h]
  decide

/-! ## Claim theorems: archiver -/

/-- Claim C7, counterexample: the only included file gets internal name
`dist/a.txt` — the full walked path including the distribution root's own
prefix — which differs from its path relative to the root, `a.txt`. -/
theorem C7_counterexample :
    zipdir_arcnames fs7 ["dist"] = [["dist", "a.txt"]]
      ∧ (["dist", "a.txt"] : List String) ≠ ["a.txt"] := by
  constructor
  · rfl
  · decide

/-- Claim C7, amended: the archive contains exactly the walked files whose
bare filename does not contain `.DS_Store`, and each included file's internal
name is its full walked path `os.path.join(root, file)`, which starts with
the distribution root's own prefix. -/
theorem C7_amended :
    ∀ (fs : FS) (dirname : List String),
      (∀ p, p ∈ zipdir_arcnames fs dirname ↔
          ((∃ c, (p, c) ∈ fs.files) ∧ strictUnder dirname p = true
            ∧ hasSubstr ".DS_Store" (p.getLast?.getD "") = false))
    ∧ (∀ p, p ∈ zipdir_arcnames fs dirname → isInit dirname p = true) := by
  intro fs dirname
  have hmem : ∀ p, p ∈ zipdir_arcnames fs dirname ↔
      ((∃ c, (p, c) ∈ fs.files) ∧ strictUnder dirname p = true
        ∧ hasSubstr ".DS_Store" (p.getLast?.getD "") = false) := by
    intro p
    rw [zipdir_arcnames, List.mem_filterMap]
    constructor
    · rintro ⟨e, he, hfe⟩
      by_cases h1 : strictUnder dirname e.1 = true
      · rw [if_pos h1] at hfe
        by_cases h2 : hasSubstr ".DS_Store" (e.1.getLast?.getD "") = true
        · rw [if_pos h2] at hfe
          exact Option.noConfusion hfe
        · rw [if_neg h2] at hfe
          have hp : e.1 = p := Option.some.inj hfe
          subst hp
          exact ⟨⟨e.2, he⟩, h1, by simpa using h2⟩
      · rw [if_neg h1] at hfe
        exact Option.noConfusion hfe
    · rintro ⟨⟨c, hc⟩, h1, h2⟩
      refine ⟨(p, c), hc, ?_⟩
      rw [if_pos h1, if_neg (by simp [h2])]
  refine ⟨hmem, ?_⟩
  intro p hp
  have h1 := ((hmem p).mp hp).2.1
  have h2 : isInit dirname p = true ∧ dirname.length < p.length := by
    simpa [strictUnder] using h1
  exact h2.1

/-- Witness for C7_amended: the included arcname carries the root prefix. -/
theorem C7_amended_witness :
    isInit ["dist"] ["dist", "a.txt"] = true := by
  exact (C7_amended fs7 ["dist"]).2 ["dist", "a.txt"] (by decide)

/-! ## Lemmas about component paths -/

theorem isInit_iff : ∀ (p q : List String), isInit p q = true ↔ ∃ t, p ++ t = q
  | [], q => by
    simp [isInit]
  | a :: as, [] => by
    constructor
    · intro h
      exact absurd h (by rw [isInit]; exact Bool.false_ne_true)
    · rintro ⟨t, ht⟩
      exact absurd ht (by simp)
  | a :: as, b :: bs => by
    rw [isInit, Bool.and_eq_true, decide_eq_true_eq, isInit_iff as bs]
    constructor
    · rintro ⟨rfl, t, rfl⟩
      exact ⟨t, rfl⟩
    · rintro ⟨t, ht⟩
      rw [List.cons_append] at ht
      exact ⟨(List.cons.inj ht).1, t, (List.cons.inj ht).2⟩

theorem isInit_refl (p : List String) : isInit p p = true :=
  (isInit_iff p p).mpr ⟨[], List.append_nil p⟩

theorem isInit_append (p t : List String) : isInit p (p ++ t) = true :=
  (isInit_iff p (p ++ t)).mpr ⟨t, rfl⟩

theorem isInit_length {p q : List String} (h : isInit p q = true) : p.length ≤ q.length := by
  rcases (isInit_iff p q).mp h with ⟨t, rfl⟩
  simp

theorem isInit_eq_of_length {p q : List String} (h : isInit p q = true)
    (hl : q.length ≤ p.length) : p = q := by
  rcases (isInit_iff p q).mp h with ⟨t, rfl⟩
  have : t = [] := by
    rw [List.length_append] at hl
    exact List.eq_nil_of_length_eq_zero (by omega)
  rw [this, List.append_nil]

theorem isInit_snoc {q p : List String} {x : String}
    (h : isInit q (p ++ [x]) = true) : isInit q p = true ∨ q = p ++ [x] := by
  rcases (isInit_iff q (p ++ [x])).mp h with ⟨t, ht⟩
  rcases t.eq_nil_or_concat with rfl | ⟨t', y, rfl⟩
  · right
    rw [← ht, List.append_nil]
  · left
    rw [List.concat_eq_append, ← List.append_assoc] at ht
    have := List.append_inj' ht (by simp)
    exact (isInit_iff q p).mpr ⟨t', this.1⟩

theorem snoc_eq_snoc {p : List String} {a b : String} (h : p ++ [a] = p ++ [b]) :
    a = b := by
  have := List.append_cancel_left h
  exact (List.cons.inj this).1

theorem snocAppend_eq_snoc {dp r : List String} {x y : String}
    (h : (dp ++ [x]) ++ r = dp ++ [y]) : x = y ∧ r = [] := by
  rw [List.append_assoc] at h
  have h2 := List.append_cancel_left h
  rw [List.cons_append] at h2
  exact ⟨(List.cons.inj h2).1, (List.cons.inj h2).2⟩

theorem mem_nonemptyInits_isInit : ∀ {p q : List String},
    q ∈ nonemptyInits p → isInit q p = true := by
  intro p
  induction p with
  | nil => intro q hq; exact absurd hq (by simp [nonemptyInits])
  | cons a rest ih =>
    intro q hq
    rw [nonemptyInits, List.mem_cons] at hq
    rcases hq with rfl | hq
    · rw [isInit, isInit]
      simp
    · rcases List.mem_map.mp hq with ⟨q', hq', rfl⟩
      rw [isInit, Bool.and_eq_true, decide_eq_true_eq]
      exact ⟨rfl, ih hq'⟩

theorem self_mem_nonemptyInits : ∀ {p : List String}, p ≠ [] → p ∈ nonemptyInits p := by
  intro p
  induction p with
  | nil => intro h; exact absurd rfl h
  | cons a rest ih =>
    intro _
    rw [nonemptyInits]
    rcases List.eq_nil_or_concat rest with rfl | ⟨t', y, hy⟩
    · exact List.mem_cons_self _ _
    · have hne : rest ≠ [] := by rw [hy]; simp
      exact List.mem_cons_of_mem _ (List.mem_map_of_mem (a :: ·) (ih hne))

/-! ## Lemmas about the filesystem operations -/

theorem makedirs_ok {fs : FS} {p : List String}
    (h1 : p ∉ fs.dirs) (h2 : p ∉ fs.filePaths)
    (h3 : ∀ q ∈ nonemptyInits p, q ∉ fs.filePaths) :
    makedirs fs p = .ok (makedirsResult fs p) := by
  rw [makedirs, if_neg (by rintro (h | h); exacts [h1 h, h2 h]),
    if_neg (by rintro ⟨q, hq, hmem⟩; exact h3 q hq hmem)]

theorem copytree_ok {fs : FS} {src dst : List String} (h : src ∈ fs.dirs) :
    copytree fs src dst = .ok (copytreeResult fs src dst) := by
  rw [copytree, if_pos h]

/-- The filesystem after the final subdirectory-creation loop. -/
def foldMakedirsResult (dp : List String) (sds : List String) (g : FS) : FS :=
  ⟨g.dirs ++ sds.flatMap (fun sd => nonemptyInits (dp ++ [sd])), g.files⟩

theorem foldlM_makedirs (dp : List String) :
    ∀ (sds : List String) (g : FS),
      sds.Nodup →
      (∀ sd ∈ sds, (dp ++ [sd]) ∉ g.dirs) →
      (∀ sd ∈ sds, ∀ q ∈ nonemptyInits (dp ++ [sd]), q ∉ g.filePaths) →
      sds.foldlM (fun f sd => makedirs f (dp ++ [sd])) g
        = .ok (foldMakedirsResult dp sds g)
  | [], g, _, _, _ => by
    simp only [List.foldlM_nil, foldMakedirsResult, List.flatMap_nil, List.append_nil]
    rfl
  | sd :: rest, g, hnd, hd, hf => by
    rw [List.foldlM_cons]
    have hmem : (dp ++ [sd]) ∈ nonemptyInits (dp ++ [sd]) :=
      self_mem_nonemptyInits (by simp)
    rw [makedirs_ok (hd sd (List.mem_cons_self sd rest))
      (hf sd (List.mem_cons_self sd rest) _ hmem)
      (hf sd (List.mem_cons_self sd rest))]
    show rest.foldlM (fun f sd => makedirs f (dp ++ [sd]))
        (makedirsResult g (dp ++ [sd])) = _
    rw [foldlM_makedirs dp rest (makedirsResult g (dp ++ [sd]))
      (List.nodup_cons.mp hnd).2
      (by
        intro sd' hsd' hin
        rw [show (makedirsResult g (dp ++ [sd])).dirs
            = g.dirs ++ nonemptyInits (dp ++ [sd]) from rfl,
          List.mem_append] at hin
        rcases hin with hin | hin
        · exact hd sd' (List.mem_cons_of_mem sd hsd') hin
        · have heq := isInit_eq_of_length (mem_nonemptyInits_isInit hin) (by simp)
          have : sd' = sd := snoc_eq_snoc heq
          exact (List.nodup_cons.mp hnd).1 (this ▸ hsd'))
      (fun sd' hsd' => hf sd' (List.mem_cons_of_mem sd hsd'))]
    rw [Except.ok.injEq]
    simp only [foldMakedirsResult, makedirsResult, List.flatMap_cons, List.append_assoc]

theorem mem_filterMap_guard {α β : Type} (P : α → Prop) [DecidablePred P]
    (g : α → β) (l : List α) (q : β) :
    q ∈ l.filterMap (fun a => if P a then some (g a) else none)
      ↔ ∃ a ∈ l, P a ∧ g a = q := by
  rw [List.mem_filterMap]
  constructor
  · rintro ⟨a, ha, hfa⟩
    by_cases hp : P a
    · rw [if_pos hp] at hfa
      exact ⟨a, ha, hp, Option.some.inj hfa⟩
    · rw [if_neg hp] at hfa
      exact Option.noConfusion hfa
  · rintro ⟨a, ha, hp, rfl⟩
    exact ⟨a, ha, by rw [if_pos hp]⟩

theorem filePaths_copytreeResult {fs : FS} {src dst : List String} :
    (copytreeResult fs src dst).filePaths
      = fs.filePaths ++ fs.files.filterMap (fun e =>
          if isInit src e.1 then some (dst ++ e.1.drop src.length) else none) := by
  show (fs.files ++ fs.files.filterMap _).map Prod.fst = _
  rw [List.map_append]
  congr 1
  rw [List.map_filterMap]
  congr 1
  funext e
  split <;> rfl

theorem mem_filePaths_copytreeResult {fs : FS} {src dst p : List String} :
    p ∈ (copytreeResult fs src dst).filePaths
      ↔ p ∈ fs.filePaths
        ∨ ∃ e ∈ fs.files, isInit src e.1 = true ∧ dst ++ e.1.drop src.length = p := by
  rw [filePaths_copytreeResult, List.mem_append]
  refine or_congr Iff.rfl ?_
  exact mem_filterMap_guard (fun e => isInit src e.1 = true)
    (fun e => dst ++ e.1.drop src.length) fs.files p

theorem mem_dirs_copytreeResult {fs : FS} {src dst q : List String} :
    q ∈ (copytreeResult fs src dst).dirs
      ↔ (q ∈ fs.dirs ∨ q ∈ nonemptyInits dst)
        ∨ ∃ d ∈ fs.dirs, isInit src d = true ∧ dst ++ d.drop src.length = q := by
  show q ∈ fs.dirs ++ nonemptyInits dst ++ _ ↔ _
  rw [List.mem_append, List.mem_append]
  refine or_congr Iff.rfl ?_
  exact mem_filterMap_guard (fun d => isInit src d = true)
    (fun d => dst ++ d.drop src.length) fs.dirs q

/-! ## Claim theorem: distribution scaffolder -/

/-- Claim C4: scaffolding into an existing directory fails on the guard
before anything is created or copied (and a target existing as a plain file
also fails, inside `os.makedirs`); on a fresh target the root is created,
the `src` and `srcbmi` subtrees are copied from the upstream tree, and the
fixed subdirectory set is created. -/
theorem C4_scaffold :
    ∀ (fs : FS) (mf6 dp : List String),
      (dp ∈ fs.dirs →
        initialize_new_distribution fs mf6 dp
          = .error ("Distribution path cannot already exist. Remove "
              ++ joinPath dp ++ "."))
    ∧ (dp ∉ fs.dirs → dp ∈ fs.filePaths →
        initialize_new_distribution fs mf6 dp = .error "FileExistsError")
    ∧ (dp ≠ [] →
       (∀ q ∈ fs.dirs, isInit dp q = false) →
       (∀ q ∈ fs.filePaths, isInit dp q = false) →
       (∀ q ∈ fs.filePaths, isInit q dp = false) →
       mf6 ++ ["src"] ∈ fs.dirs →
       mf6 ++ ["srcbmi"] ∈ fs.dirs →
         exceptOk (initialize_new_distribution fs mf6 dp) = true
       ∧ ∀ fs', initialize_new_distribution fs mf6 dp = .ok fs' →
           dp ∈ fs'.dirs
         ∧ (∀ sd ∈ distributionSubdirs, dp ++ [sd] ∈ fs'.dirs)
         ∧ (∀ r c, ((mf6 ++ ["src"]) ++ r, c) ∈ fs.files →
             ((dp ++ ["src"]) ++ r, c) ∈ fs'.files)
         ∧ (∀ r c, ((mf6 ++ ["srcbmi"]) ++ r, c) ∈ fs.files →
             ((dp ++ ["srcbmi"]) ++ r, c) ∈ fs'.files)) := by
  intro fs mf6 dp
  refine ⟨?_, ?_, ?_⟩
  · intro h
    rw [initialize_new_distribution, if_pos h]
  · intro h1 h2
    rw [initialize_new_distribution, if_neg h1,
      show makedirs fs dp = (.error "FileExistsError" : Except String FS) from by
        rw [makedirs, if_pos (Or.inr h2)]]
    rfl
  · intro hne hdirs hfiles hanc hsrc hbmi
    have hdp_dirs : dp ∉ fs.dirs := fun h => by
      simpa [isInit_refl] using hdirs dp h
    have hdp_files : dp ∉ fs.filePaths := fun h => by
      simpa [isInit_refl] using hfiles dp h
    have hguard3 : ∀ q ∈ nonemptyInits dp, q ∉ fs.filePaths := by
      intro q hq hmem
      have h1 := hanc q hmem
      rw [mem_nonemptyInits_isInit hq] at h1
      exact Bool.noConfusion h1
    have e1 : makedirs fs dp = .ok (makedirsResult fs dp) :=
      makedirs_ok hdp_dirs hdp_files hguard3
    set g1 : FS := makedirsResult fs dp with hg1def
    have hg1dirs : g1.dirs = fs.dirs ++ nonemptyInits dp := rfl
    have hg1files : g1.files = fs.files := rfl
    have e2 : copytree g1 (mf6 ++ ["src"]) (dp ++ ["src"])
        = .ok (copytreeResult g1 (mf6 ++ ["src"]) (dp ++ ["src"])) :=
      copytree_ok (by rw [hg1dirs]; exact List.mem_append_left _ hsrc)
    set g2 : FS := copytreeResult g1 (mf6 ++ ["src"]) (dp ++ ["src"]) with hg2def
    have e3 : copytree g2 (mf6 ++ ["srcbmi"]) (dp ++ ["srcbmi"])
        = .ok (copytreeResult g2 (mf6 ++ ["srcbmi"]) (dp ++ ["srcbmi"])) :=
      copytree_ok (by
        rw [hg2def]
        exact mem_dirs_copytreeResult.mpr
          (Or.inl (Or.inl (by rw [hg1dirs]; exact List.mem_append_left _ hbmi))))
    set g3 : FS := copytreeResult g2 (mf6 ++ ["srcbmi"]) (dp ++ ["srcbmi"]) with hg3def
    have hApre : ∀ sd ∈ distributionSubdirs, (dp ++ [sd]) ∉ g3.dirs := by
      intro sd hsd hin
      have hsd_src : sd ≠ "src" := by
        intro h
        rw [h] at hsd
        revert hsd
        decide
      have hsd_bmi : sd ≠ "srcbmi" := by
        intro h
        rw [h] at hsd
        revert hsd
        decide
      rw [hg3def, mem_dirs_copytreeResult] at hin
      rcases hin with (hin | hin) | ⟨d, _, _, heqd⟩
      · rw [hg2def, mem_dirs_copytreeResult] at hin
        rcases hin with (hin | hin) | ⟨d, _, _, heqd⟩
        · rw [hg1dirs, List.mem_append] at hin
          rcases hin with hin | hin
          · have hfd := hdirs _ hin
            rw [isInit_append] at hfd
            exact Bool.noConfusion hfd
          · have h1 := isInit_length (mem_nonemptyInits_isInit hin)
            rw [List.length_append] at h1
            simp at h1
        · have h1 := mem_nonemptyInits_isInit hin
          have h2 := isInit_eq_of_length h1 (by simp)
          exact hsd_src (snoc_eq_snoc h2)
        · exact hsd_src ((snocAppend_eq_snoc heqd).1.symm)
      · have h1 := mem_nonemptyInits_isInit hin
        have h2 := isInit_eq_of_length h1 (by simp)
        exact hsd_bmi (snoc_eq_snoc h2)
      · exact hsd_bmi ((snocAppend_eq_snoc heqd).1.symm)
    have hBpre : ∀ sd ∈ distributionSubdirs, ∀ q ∈ nonemptyInits (dp ++ [sd]),
        q ∉ g3.filePaths := by
      intro sd hsd q hq hin
      have hsd_src : sd ≠ "src" := by
        intro h
        rw [h] at hsd
        revert hsd
        decide
      have hsd_bmi : sd ≠ "srcbmi" := by
        intro h
        rw [h] at hsd
        revert hsd
        decide
      rw [hg3def, mem_filePaths_copytreeResult] at hin
      have hqInit := mem_nonemptyInits_isInit hq
      rcases isInit_snoc hqInit with hqdp | rfl
      · rcases hin with hin | ⟨e, _, _, heqe⟩
        · rw [hg2def, mem_filePaths_copytreeResult] at hin
          rcases hin with hin | ⟨e, _, _, heqe⟩
          · have hf := hanc q hin
            rw [hqdp] at hf
            exact Bool.noConfusion hf
          · rw [← heqe] at hqdp
            have hl := isInit_length hqdp
            rw [List.length_append, List.length_append] at hl
            simp at hl
            omega
        · rw [← heqe] at hqdp
          have hl := isInit_length hqdp
          rw [List.length_append, List.length_append] at hl
          simp at hl
          omega
      · rcases hin with hin | ⟨e, _, _, heqe⟩
        · rw [hg2def, mem_filePaths_copytreeResult] at hin
          rcases hin with hin | ⟨e, _, _, heqe⟩
          · have hf := hfiles _ hin
            rw [isInit_append] at hf
            exact Bool.noConfusion hf
          · exact hsd_src ((snocAppend_eq_snoc heqe).1.symm)
        · exact hsd_bmi ((snocAppend_eq_snoc heqe).1.symm)
    have e4 : distributionSubdirs.foldlM (fun f sd => makedirs f (dp ++ [sd])) g3
        = .ok (foldMakedirsResult dp distributionSubdirs g3) :=
      foldlM_makedirs dp distributionSubdirs g3 (by decide) hApre hBpre
    set gF : FS := foldMakedirsResult dp distributionSubdirs g3 with hgFdef
    have hpipe : initialize_new_distribution fs mf6 dp = .ok gF := by
      rw [initialize_new_distribution, if_neg hdp_dirs, e1]
      show (copytree g1 (mf6 ++ ["src"]) (dp ++ ["src"]) >>= fun fs2 =>
          copytree fs2 (mf6 ++ ["srcbmi"]) (dp ++ ["srcbmi"]) >>= fun fs3 =>
          distributionSubdirs.foldlM (fun f sd => makedirs f (dp ++ [sd])) fs3)
          = .ok gF
      rw [e2]
      show (copytree g2 (mf6 ++ ["srcbmi"]) (dp ++ ["srcbmi"]) >>= fun fs3 =>
          distributionSubdirs.foldlM (fun f sd => makedirs f (dp ++ [sd])) fs3)
          = .ok gF
      rw [e3]
      show distributionSubdirs.foldlM (fun f sd => makedirs f (dp ++ [sd])) g3 = .ok gF
      exact e4
    refine ⟨by rw [hpipe]; rfl, ?_⟩
    intro fs' h'
    have hfseq : fs' = gF := Except.ok.inj (h'.symm.trans hpipe)
    subst hfseq
    have hgFfiles : gF.files = g2.files
        ++ g2.files.filterMap (fun e =>
            if isInit (mf6 ++ ["srcbmi"]) e.1
            then some ((dp ++ ["srcbmi"]) ++ e.1.drop (mf6 ++ ["srcbmi"]).length, e.2)
            else none) := rfl
    have hg2files : g2.files = fs.files
        ++ fs.files.filterMap (fun e =>
            if isInit (mf6 ++ ["src"]) e.1
            then some ((dp ++ ["src"]) ++ e.1.drop (mf6 ++ ["src"]).length, e.2)
            else none) := rfl
    refine ⟨?_, ?_, ?_, ?_⟩
    · show dp ∈ g3.dirs
        ++ distributionSubdirs.flatMap (fun sd => nonemptyInits (dp ++ [sd]))
      refine List.mem_append_left _ ?_
      rw [hg3def, mem_dirs_copytreeResult]
      refine Or.inl (Or.inl ?_)
      rw [hg2def, mem_dirs_copytreeResult]
      refine Or.inl (Or.inl ?_)
      rw [hg1dirs]
      exact List.mem_append_right _ (self_mem_nonemptyInits hne)
    · intro sd hsd
      show dp ++ [sd] ∈ g3.dirs
        ++ distributionSubdirs.flatMap (fun sd => nonemptyInits (dp ++ [sd]))
      refine List.mem_append_right _ ?_
      rw [List.mem_flatMap]
      exact ⟨sd, hsd, self_mem_nonemptyInits (by simp)⟩
    · intro r c hmem
      rw [hgFfiles]
      refine List.mem_append_left _ ?_
      rw [hg2files]
      refine List.mem_append_right _ ?_
      rw [List.mem_filterMap]
      refine ⟨((mf6 ++ ["src"]) ++ r, c), hmem, ?_⟩
      rw [if_pos (isInit_append (mf6 ++ ["src"]) r)]
      rw [List.drop_left]
    · intro r c hmem
      rw [hgFfiles]
      refine List.mem_append_right _ ?_
      rw [List.mem_filterMap]
      refine ⟨((mf6 ++ ["srcbmi"]) ++ r, c), ?_, ?_⟩
      · rw [hg2files]
        exact List.mem_append_left _ hmem
      · rw [if_pos (isInit_append (mf6 ++ ["srcbmi"]) r)]
        rw [List.drop_left]

/-- Witness for C4_scaffold: the guard fires on an existing target directory,
and scaffolding succeeds on a fresh target over the upstream tree `fs4`. -/
theorem C4_scaffold_witness :
    initialize_new_distribution ⟨[["d"]], []⟩ ["m"] ["d"]
        = .error "Distribution path cannot already exist. Remove d."
      ∧ exceptOk (initialize_new_distribution fs4 ["m"] ["d"]) = true := by
  constructor
  · have h := (C4_scaffold ⟨[["d"]], []⟩ ["m"] ["d"]).1 (by decide)
    rw [h]
    rfl
  · exact ((C4_scaffold fs4 ["m"] ["d"]).2.2 (by decide) (by decide) (by decide)
      (by decide) (by decide) (by decide)).1

end MakeDistribution

